import Mathlib

/-!
Verification of the ncmdump-py repository core against its specification.

The source files embedded here are src/ncmdump/crypto.py (class NCMRC4) and
src/ncmdump/core.py (classes MusicMetadata, Metadata, NeteaseCloudMusicFile).
Bytes are modelled as natural numbers (each value below 256 in real runs);
byte strings as List Nat; Python dicts produced by json.loads as a Json tree.
Stateful methods are modelled by explicit state passing; Python exceptions by
Except results.
-/

/-! ## Stream cipher: crypto.py, class NCMRC4 -/

/-- Simultaneous swap assignment from crypto.py line 28:
s[i], s[j] = s[j], s[i] (both right-hand sides read before writing). -/
def listSwap (s : List Nat) (i j : Nat) : List Nat :=
  let a := s.getD i 0
  let b := s.getD j 0
  (s.set i b).set j a

/-- One iteration of the standard RC4 key-scheduling loop,
crypto.py lines 26-28.  State is (s_box, j). -/
def ksaStep (key : List Nat) (st : List Nat × Nat) (i : Nat) : List Nat × Nat :=
  let j := (st.2 + st.1.getD i 0 + key.getD (i % key.length) 0) % 256
  (listSwap st.1 i j, j)

/-- The s_box after the standard RC4 init of crypto.py lines 20, 25-28:
s_box starts as bytearray(range(256)), j as 0. -/
def sBox (key : List Nat) : List Nat :=
  ((List.range 256).foldl (ksaStep key) (List.range 256, 0)).1

/-- The non-standard key_box generation of crypto.py lines 31-35:
for each i, j = (i+1) mod 256, s_j = s_box[j], s_jj = s_box[(s_j+j) mod 256],
key_box[i] = s_box[(s_jj+s_j) mod 256]. -/
def keyBox (key : List Nat) : List Nat :=
  (List.range 256).map (fun i =>
    let s := sBox key
    let j := (i + 1) % 256
    let sj := s.getD j 0
    let sjj := s.getD ((sj + j) % 256) 0
    s.getD ((sjj + sj) % 256) 0)

/-- The mutable state of an NCMRC4 instance: the key_box table (computed once
at construction) and the position counter key_pos. -/
structure NCMRC4 where
  key_box : List Nat
  key_pos : Nat
deriving Repr, DecidableEq

/-- NCMRC4.__init__ (crypto.py lines 13-35): key_box derived from the key,
key_pos = 0. -/
def NCMRC4.init (key : List Nat) : NCMRC4 :=
  { key_box := keyBox key, key_pos := 0 }

/-- The key_pos update of crypto.py lines 50-53: wrap to 0 after 255,
otherwise increment. -/
def stepPos (p : Nat) : Nat :=
  if p ≥ 255 then 0 else p + 1

/-- NCMRC4.decrypt (crypto.py lines 37-54): XOR each ciphertext byte with
key_box[key_pos], stepping key_pos.  Returns the plaintext and the
post-call instance state. -/
def NCMRC4.decrypt (st : NCMRC4) (ciphertext : List Nat) : List Nat × NCMRC4 :=
  match ciphertext with
  | [] => ([], st)
  | b :: rest =>
    let out := b ^^^ st.key_box.getD st.key_pos 0
    let next := NCMRC4.decrypt { st with key_pos := stepPos st.key_pos } rest
    (out :: next.1, next.2)

/-- The instance state after a sequence of decrypt calls on one instance. -/
def decryptCalls (st : NCMRC4) (chunks : List (List Nat)) : NCMRC4 :=
  chunks.foldl (fun s ch => (s.decrypt ch).2) st

/-- Total number of bytes consumed by a sequence of decrypt calls. -/
def totalLen (chunks : List (List Nat)) : Nat :=
  (chunks.map List.length).sum

/-! ## JSON values, as produced by json.loads in core.py -/

/-- A JSON tree as produced by json.loads.  Numbers are modelled as integers
(the metadata fields consumed by the core are integral). -/
inductive Json where
  | null : Json
  | bool : Bool → Json
  | num : Int → Json
  | str : String → Json
  | arr : List Json → Json
  | obj : List (String × Json) → Json

/-- Python dict.get(key) on a JSON object: the value of the first binding of
the key, none when the key is absent or the value is not an object. -/
def Json.get (j : Json) (k : String) : Option Json :=
  match j with
  | .obj fields => fields.lookup k
  | _ => none

/-- Python sequence indexing a[0] as used in core.py line 51; none models the
error the source raises when a is not a non-empty sequence. -/
def Json.index0 (j : Json) : Option Json :=
  match j with
  | .arr (x :: _) => some x
  | _ => none

/-- Collect a list of optional values, failing if any entry is none. -/
def allSome : List (Option Json) → Option (List Json)
  | [] => some []
  | none :: _ => none
  | some x :: rest => (allSome rest).map (x :: ·)

/-- Python truthiness of a JSON value: None, False, zero, and empty
strings, lists and dicts are falsy. -/
def jsonFalsy : Json → Bool
  | .null => true
  | .bool b => !b
  | .num n => n == 0
  | .str s => s == ""
  | .arr l => l.isEmpty
  | .obj l => l.isEmpty

/-- MusicMetadata.__init__ (core.py lines 24-25): the expression
data or dict(), which replaces a missing (None) or falsy data argument by
the empty dict. -/
def musicDataOf (data : Option Json) : Json :=
  match data with
  | none => Json.obj []
  | some d => if jsonFalsy d then Json.obj [] else d

/-- MusicMetadata.artists (core.py lines 49-51): the first element of each
entry of self._data.get(str, default empty list) for the artist key.
none models the exception raised when an entry has no element 0 or the
value is not a sequence. -/
def artistsOf (d : Json) : Option (List Json) :=
  match (d.get "artist").getD (Json.arr []) with
  | .arr l => allSome (l.map Json.index0)
  | _ => none

/-- The state of a Metadata instance (core.py lines 131-142): the type tag
found before the first colon of the plaintext, the parsed JSON, and the
data dict of the contained MusicMetadata instance. -/
structure Metadata where
  type : String
  data : Json
  music_metadata : Json

inductive MetadataError where
  | UnknownMetadataType : MetadataError
deriving DecidableEq

/-- Metadata.__init__ (core.py lines 131-142) applied to a plaintext of the
form type-colon-json.  The byte-level colon split and json.loads are done
by the Python runtime and standard library; their results ty and data are
taken as inputs here.  Dispatch: a music record reads fields from data
itself, a dj record from the nested mainMusic object, and any other type
raises TypeError (the UnknownMetadataType of the specification). -/
def Metadata.init (ty : String) (data : Json) : Except MetadataError Metadata :=
  if ty = "music" then .ok ⟨ty, data, musicDataOf (some data)⟩
  else if ty = "dj" then .ok ⟨ty, data, musicDataOf (data.get "mainMusic")⟩
  else .error .UnknownMetadataType

/-- Metadata built from empty bytes, as done at parse time (core.py lines
131-135 and 225): empty bytes are replaced by a literal plaintext whose
type is music and whose JSON is the empty object. -/
def defaultMetadata : Metadata :=
  { type := "music", data := Json.obj [], music_metadata := Json.obj [] }

/-- Python equality between a JSON value and a string literal: true only for
the equal string (core.py lines 414 and 416 compare the format tag
against string literals). -/
def eqStrJson (j : Json) (s : String) : Bool :=
  match j with
  | .str t => t == s
  | _ => false

/-- MusicMetadata.format (core.py lines 37-39): the format key of the data
dict, with the string mp3 as default. -/
def formatOf (m : Metadata) : Json :=
  (m.music_metadata.get "format").getD (Json.str "mp3")

/-! ## Container parsing: core.py, class NeteaseCloudMusicFile -/

/-- The 8-byte magic constant CTENFDAM (core.py line 166). -/
def MAGIC_HEADER : List Nat := [0x43, 0x54, 0x45, 0x4E, 0x46, 0x44, 0x41, 0x4D]

/-- int.from_bytes with little-endian byte order, as used for every length
field in core.py. -/
def fromLittleEndian (bs : List Nat) : Nat :=
  bs.foldr (fun b acc => b + 256 * acc) 0

/-- Python file.read(n) on an in-memory byte stream: returns up to n bytes
(fewer when the stream ends, without raising) and the remaining stream. -/
def readBytes (n : Nat) (s : List Nat) : List Nat × List Nat :=
  (s.take n, s.drop n)

/-- The attributes set by NeteaseCloudMusicFile._parse (core.py lines
207-235). -/
structure NCMFile where
  hdr : List Nat
  gap1 : List Nat
  rc4_key_enc_size : Nat
  rc4_key_enc : List Nat
  rc4_key : List Nat
  metadata_enc_size : Nat
  metadata_enc : List Nat
  metadata : Metadata
  crc32 : Nat
  gap2 : List Nat
  cover_data_size : Nat
  cover_data : List Nat
  music_data_enc : List Nat
  music_data : List Nat

inductive ParseError where
  | InvalidFormat : ParseError
deriving DecidableEq

/-- Whether a parse attempt succeeded. -/
def parseOk (r : Except ParseError NCMFile) : Bool :=
  match r with
  | .ok _ => true
  | .error _ => false

/-- NeteaseCloudMusicFile._parse (core.py lines 207-235) over the file
bytes.  The TypeError raised on a magic mismatch is the InvalidFormat of
the specification taxonomy.  Every section is read with file.read, which
silently returns fewer bytes than requested at end of stream. -/
def parse (fileData : List Nat) : Except ParseError NCMFile :=
  let r0 := readBytes 8 fileData
  if r0.1 ≠ MAGIC_HEADER then .error .InvalidFormat
  else
    let r1 := readBytes 2 r0.2
    let r2 := readBytes 4 r1.2
    let keySize := fromLittleEndian r2.1
    let r3 := readBytes keySize r2.2
    let r4 := readBytes 4 r3.2
    let metaSize := fromLittleEndian r4.1
    let r5 := readBytes metaSize r4.2
    let r6 := readBytes 4 r5.2
    let r7 := readBytes 5 r6.2
    let r8 := readBytes 4 r7.2
    let coverSize := fromLittleEndian r8.1
    let r9 := readBytes coverSize r8.2
    .ok {
      hdr := r0.1
      gap1 := r1.1
      rc4_key_enc_size := keySize
      rc4_key_enc := r3.1
      rc4_key := []
      metadata_enc_size := metaSize
      metadata_enc := r5.1
      metadata := defaultMetadata
      crc32 := fromLittleEndian r6.1
      gap2 := r7.1
      cover_data_size := coverSize
      cover_data := r9.1
      music_data_enc := r9.2
      music_data := [] }

/-- NeteaseCloudMusicFile.has_metadata (core.py lines 174-176). -/
def hasMetadata (f : NCMFile) : Bool :=
  f.metadata_enc_size > 0

/-- NeteaseCloudMusicFile._decrypt_metadata (core.py lines 250-265): a no-op
when the metadata section is empty; otherwise the section is XOR-unmasked,
base64-decoded, AES-unwrapped and parsed (external cipher and codec
libraries), producing a new Metadata value, taken here as decoded. -/
def decryptMetadata (f : NCMFile) (decoded : Metadata) : NCMFile :=
  if f.metadata_enc_size > 0 then { f with metadata := decoded } else f

inductive DumpError where
  | UnsupportedTagFormat : DumpError
deriving DecidableEq

/-- NeteaseCloudMusicFile._dump_music (core.py lines 342-354): decrypt the
audio with the RC4 engine lazily when self._music_data is still empty,
then write the bytes; the written bytes are returned. -/
def dumpMusicRaw (f : NCMFile) : List Nat :=
  if f.music_data = [] then ((NCMRC4.init f.rc4_key).decrypt f.music_data_enc).1
  else f.music_data

/-- NeteaseCloudMusicFile.dump_music (core.py lines 399-421): the raw audio
is written first via _dump_music, then tags are embedded for the flac and
mp3 format tags, and any other tag raises NotImplementedError (the
UnsupportedTagFormat of the specification) after the write.  The result
pairs the bytes written with the tagging outcome. -/
def dumpMusic (f : NCMFile) : List Nat × Except DumpError Unit :=
  let written := dumpMusicRaw f
  if eqStrJson (formatOf f.metadata) "flac" then (written, .ok ())
  else if eqStrJson (formatOf f.metadata) "mp3" then (written, .ok ())
  else (written, .error .UnsupportedTagFormat)

/-! ## Key unwrap: crypto.py NCMAES.unpad and core.py _decrypt_rc4_key -/

inductive UnwrapError where
  | PaddingError : UnwrapError
deriving DecidableEq

/-- PKCS7 unpadding as implemented by the Crypto.Util.Padding library
function called from NCMAES.unpad (crypto.py lines 83-93): the last byte
gives the padding length, which must lie between 1 and the minimum of the
block size and the data length, the data length must be a positive
multiple of the block size, and the final padding bytes must all equal
the padding length. -/
def pkcs7Unpad (data : List Nat) (blockSize : Nat) : Except UnwrapError (List Nat) :=
  let n := data.length
  if n = 0 then .error .PaddingError
  else if n % blockSize ≠ 0 then .error .PaddingError
  else
    let padLen := data.getLast?.getD 0
    if padLen < 1 ∨ padLen > min blockSize n then .error .PaddingError
    else if data.drop (n - padLen) ≠ List.replicate padLen padLen then .error .PaddingError
    else .ok (data.take (n - padLen))

/-- The byte-wise XOR mask of core.py line 245 (and line 260). -/
def xorMask (mask : Nat) (bs : List Nat) : List Nat :=
  bs.map (fun b => b ^^^ mask)

/-- The 17 ASCII bytes of the neteasecloudmusic literal (core.py line 248). -/
def rc4KeyLiteral : List Nat :=
  [110, 101, 116, 101, 97, 115, 101, 99, 108, 111, 117, 100, 109, 117, 115, 105, 99]

/-- NeteaseCloudMusicFile._decrypt_rc4_key (core.py lines 237-248): XOR the
key section with 0x64, AES-ECB-decrypt it (the external cipher library,
passed in as aesDecrypt), PKCS7-unpad, and drop the first 17 bytes (the
length of the neteasecloudmusic literal) without any check on their
value. -/
def decryptRC4Key (aesDecrypt : List Nat → List Nat) (keyBlob : List Nat) :
    Except UnwrapError (List Nat) :=
  (pkcs7Unpad (aesDecrypt (xorMask 0x64 keyBlob)) 16).map (List.drop 17)

/-- A concrete parse-time state used to instantiate theorems: an already
parsed file whose metadata format tag is the string ogg and whose audio
is not yet decrypted. -/
def sampleFile : NCMFile where
  hdr := MAGIC_HEADER
  gap1 := [0, 0]
  rc4_key_enc_size := 0
  rc4_key_enc := []
  rc4_key := [1, 2, 3]
  metadata_enc_size := 0
  metadata_enc := []
  metadata := ⟨"music", Json.obj [("format", Json.str "ogg")],
    Json.obj [("format", Json.str "ogg")]⟩
  crc32 := 0
  gap2 := []
  cover_data_size := 0
  cover_data := []
  music_data_enc := [5, 6, 7]
  music_data := []

lemma stepPos_lt (p : Nat) : stepPos p < 256 := by
  unfold stepPos; split <;> omega

lemma stepPos_eq_mod (p : Nat) (h : p < 256) : stepPos p = (p + 1) % 256 := by
  unfold stepPos; split <;> omega

lemma decrypt_length (st : NCMRC4) (ct : List Nat) :
    (st.decrypt ct).1.length = ct.length := by
  induction ct generalizing st with
  | nil => rfl
  | cons b rest ih => simpa [NCMRC4.decrypt] using ih _

lemma decrypt_key_box (st : NCMRC4) (ct : List Nat) :
    (st.decrypt ct).2.key_box = st.key_box := by
  induction ct generalizing st with
  | nil => rfl
  | cons b rest ih => simpa [NCMRC4.decrypt] using ih _

lemma decrypt_key_pos (kb : List Nat) (pos : Nat) (h : pos < 256) (ct : List Nat) :
    (NCMRC4.decrypt ⟨kb, pos⟩ ct).2.key_pos = (pos + ct.length) % 256 := by
  induction ct generalizing pos with
  | nil => simp [NCMRC4.decrypt, Nat.mod_eq_of_lt h]
  | cons b rest ih =>
    have h1 := ih (stepPos pos) (stepPos_lt pos)
    have h2 := stepPos_eq_mod pos h
    simp only [NCMRC4.decrypt]
    rw [h1, h2]
    simp only [List.length_cons]
    omega

lemma decrypt_getD (kb : List Nat) (pos : Nat) (h : pos < 256) (ct : List Nat)
    (k : Nat) (hk : k < ct.length) :
    (NCMRC4.decrypt ⟨kb, pos⟩ ct).1.getD k 0
      = ct.getD k 0 ^^^ kb.getD ((pos + k) % 256) 0 := by
  induction ct generalizing pos k with
  | nil => simp at hk
  | cons b rest ih =>
    cases k with
    | zero =>
      simp [NCMRC4.decrypt, Nat.mod_eq_of_lt h]
    | succ k' =>
      have hk' : k' < rest.length := by simpa using hk
      have h1 := ih (stepPos pos) (stepPos_lt pos) k' hk'
      have h2 := stepPos_eq_mod pos h
      have h3 : (stepPos pos + k') % 256 = (pos + (k' + 1)) % 256 := by
        rw [h2]; omega
      simp only [NCMRC4.decrypt, List.getD_cons_succ]
      rw [h1, h3]

lemma decryptCalls_eq (kb : List Nat) (pos : Nat) (h : pos < 256)
    (chunks : List (List Nat)) :
    decryptCalls ⟨kb, pos⟩ chunks = ⟨kb, (pos + totalLen chunks) % 256⟩ := by
  induction chunks generalizing pos with
  | nil => simp [decryptCalls, totalLen, Nat.mod_eq_of_lt h]
  | cons ch rest ih =>
    have hkb := decrypt_key_box ⟨kb, pos⟩ ch
    have hkp := decrypt_key_pos kb pos h ch
    have hstep : (NCMRC4.decrypt ⟨kb, pos⟩ ch).2 = ⟨kb, (pos + ch.length) % 256⟩ := by
      cases hst : (NCMRC4.decrypt ⟨kb, pos⟩ ch).2
      simp_all
    have ih' := ih ((pos + ch.length) % 256) (Nat.mod_lt _ (by omega))
    simp only [decryptCalls, List.foldl_cons] at *
    rw [hstep, ih']
    have : ((pos + ch.length) % 256 + totalLen rest) % 256
        = (pos + (ch.length + totalLen rest)) % 256 := by omega
    rw [this]
    simp [totalLen]

lemma decryptCalls_init (key : List Nat) (chunks : List (List Nat)) :
    decryptCalls (NCMRC4.init key) chunks = ⟨keyBox key, totalLen chunks % 256⟩ := by
  have := decryptCalls_eq (keyBox key) 0 (by omega) chunks
  simpa [NCMRC4.init] using this

lemma keyBox_getD (key : List Nat) (i : Nat) (h : i < 256) :
    (keyBox key).getD i 0
      = (let s := sBox key
         let j := (i + 1) % 256
         let sj := s.getD j 0
         let sjj := s.getD ((sj + j) % 256) 0
         s.getD ((sjj + sj) % 256) 0) := by
  have hlen : i < ((List.range 256).map (fun i =>
      let s := sBox key
      let j := (i + 1) % 256
      let sj := s.getD j 0
      let sjj := s.getD ((sj + j) % 256) 0
      s.getD ((sjj + sj) % 256) 0)).length := by
    simpa using h
  rw [keyBox, List.getD_eq_getElem _ _ hlen]
  simp

/-- Claim C1: for every non-empty key, the engine built from that key derives
its 256-entry keystream table from the RC4-scheduled state S by
table[i] = S[(sjj+sj) mod 256] with j = (i+1) mod 256, sj = S[j],
sjj = S[(sj+j) mod 256]; and decryption of a ciphertext, after any prior
calls on the same instance, outputs for its k-th byte c the value
c XOR table[(pos0+k) mod 256], where pos0 counts all bytes consumed by the
prior calls. -/
theorem rc4_keystream_and_decrypt_spec (key : List Nat) (_hkey : key ≠ [])
    (prior : List (List Nat)) (ct : List Nat) :
    (((decryptCalls (NCMRC4.init key) prior).decrypt ct).1.length = ct.length
      ∧ ∀ k, k < ct.length →
        ((decryptCalls (NCMRC4.init key) prior).decrypt ct).1.getD k 0
          = ct.getD k 0 ^^^ (keyBox key).getD ((totalLen prior + k) % 256) 0)
    ∧ ∀ i, i < 256 →
        (keyBox key).getD i 0
          = (let s := sBox key
             let j := (i + 1) % 256
             let sj := s.getD j 0
             let sjj := s.getD ((sj + j) % 256) 0
             s.getD ((sjj + sj) % 256) 0) := by
  rw [decryptCalls_init]
  refine ⟨⟨decrypt_length _ _, fun k hk => ?_⟩, fun i hi => keyBox_getD key i hi⟩
  rw [decrypt_getD (keyBox key) (totalLen prior % 256) (Nat.mod_lt _ (by omega)) ct k hk]
  have : (totalLen prior % 256 + k) % 256 = (totalLen prior + k) % 256 := by omega
  rw [this]

/-- Witness for C1 at a concrete key, prior-call list and ciphertext. -/
theorem rc4_keystream_and_decrypt_spec_inst :
    ([1, 2, 3] : List Nat) ≠ []
    ∧ ((((decryptCalls (NCMRC4.init [1, 2, 3]) [[9]]).decrypt [7, 8]).1.length
          = ([7, 8] : List Nat).length
        ∧ ∀ k, k < ([7, 8] : List Nat).length →
            ((decryptCalls (NCMRC4.init [1, 2, 3]) [[9]]).decrypt [7, 8]).1.getD k 0
              = ([7, 8] : List Nat).getD k 0
                  ^^^ (keyBox [1, 2, 3]).getD ((totalLen [[9]] + k) % 256) 0)
      ∧ ∀ i, i < 256 →
          (keyBox [1, 2, 3]).getD i 0
            = (let s := sBox [1, 2, 3]
               let j := (i + 1) % 256
               let sj := s.getD j 0
               let sjj := s.getD ((sj + j) % 256) 0
               s.getD ((sjj + sj) % 256) 0)) :=
  ⟨by decide, rc4_keystream_and_decrypt_spec [1, 2, 3] (by decide) [[9]] [7, 8]⟩

lemma decrypt_append (st : NCMRC4) (c1 c2 : List Nat) :
    st.decrypt (c1 ++ c2)
      = ((st.decrypt c1).1 ++ ((st.decrypt c1).2.decrypt c2).1,
         ((st.decrypt c1).2.decrypt c2).2) := by
  induction c1 generalizing st with
  | nil => simp [NCMRC4.decrypt]
  | cons b rest ih => simp [NCMRC4.decrypt, ih]

/-- Claim C2: for every key and every split of a ciphertext into two chunks,
decrypting chunk1 then chunk2 on one instance and concatenating equals
decrypting the whole ciphertext on a fresh instance from the same key. -/
theorem rc4_chunk_invariance (key : List Nat) (chunk1 chunk2 : List Nat) :
    ((NCMRC4.init key).decrypt chunk1).1
        ++ (((NCMRC4.init key).decrypt chunk1).2.decrypt chunk2).1
      = ((NCMRC4.init key).decrypt (chunk1 ++ chunk2)).1 := by
  rw [decrypt_append]

/-- Claim C10: after any sequence of decrypt calls on one instance, the
position counter is below 256 and equals the total number of bytes
decrypted so far modulo 256. -/
theorem rc4_pos_invariant (key : List Nat) (chunks : List (List Nat)) :
    (decryptCalls (NCMRC4.init key) chunks).key_pos < 256
    ∧ (decryptCalls (NCMRC4.init key) chunks).key_pos = totalLen chunks % 256 := by
  rw [decryptCalls_init]
  exact ⟨Nat.mod_lt _ (by omega), rfl⟩

/-! ## Theorems about the container parser and metadata -/

/-- Claim C5: any input whose first 8 bytes differ from the magic constant
(including inputs shorter than 8 bytes) fails to parse with
InvalidFormat; parsing never silently succeeds on such input. -/
theorem parse_bad_magic_fails (fileData : List Nat)
    (h : fileData.take 8 ≠ MAGIC_HEADER) :
    parse fileData = .error .InvalidFormat := by
  unfold parse readBytes
  simp only []
  rw [if_pos h]

/-- Witness for C5 at a concrete 3-byte input. -/
theorem parse_bad_magic_fails_inst :
    ([1, 2, 3] : List Nat).take 8 ≠ MAGIC_HEADER
    ∧ parse [1, 2, 3] = .error .InvalidFormat :=
  ⟨by decide, parse_bad_magic_fails [1, 2, 3] (by decide)⟩

/-- Claim C3 counterexample: an input with the correct magic that declares a
100-byte key section but ends right after the length field parses
successfully, with an empty key section, instead of failing with a
truncation error. -/
theorem parse_truncated_succeeds_cex :
    parseOk (parse (MAGIC_HEADER ++ [0, 0] ++ [100, 0, 0, 0])) = true
    ∧ (parse (MAGIC_HEADER ++ [0, 0] ++ [100, 0, 0, 0])).map
        (fun f => (f.rc4_key_enc_size, f.rc4_key_enc.length)) = .ok (100, 0) :=
  ⟨rfl, rfl⟩

/-- Claim C3 amended: the parser never fails because of truncation.  Any
input starting with the 8-byte magic parses successfully, and a declared
section length that exceeds the remaining bytes yields a short section:
the key section, for instance, is whatever remains of the declared
count. -/
theorem parse_no_truncation_error (fileData : List Nat)
    (h : fileData.take 8 = MAGIC_HEADER) :
    parseOk (parse fileData) = true
    ∧ (parse fileData).map (fun f => f.rc4_key_enc)
      = .ok ((fileData.drop 14).take
          (fromLittleEndian ((fileData.drop 10).take 4))) := by
  unfold parse readBytes
  simp only []
  rw [if_neg (by simp [h])]
  refine ⟨rfl, ?_⟩
  simp [Except.map, List.drop_drop]

/-- Witness for the amended C3 at the truncated input of the
counterexample. -/
theorem parse_no_truncation_error_inst :
    (MAGIC_HEADER ++ [0, 0] ++ [100, 0, 0, 0]).take 8 = MAGIC_HEADER
    ∧ (parseOk (parse (MAGIC_HEADER ++ [0, 0] ++ [100, 0, 0, 0])) = true
      ∧ (parse (MAGIC_HEADER ++ [0, 0] ++ [100, 0, 0, 0])).map (fun f => f.rc4_key_enc)
        = .ok (((MAGIC_HEADER ++ [0, 0] ++ [100, 0, 0, 0]).drop 14).take
            (fromLittleEndian
              (((MAGIC_HEADER ++ [0, 0] ++ [100, 0, 0, 0]).drop 10).take 4)))) :=
  ⟨by decide, parse_no_truncation_error (MAGIC_HEADER ++ [0, 0] ++ [100, 0, 0, 0]) (by decide)⟩

/-- Claim C6: a parsed container whose metadata section has declared length
zero keeps the default empty metadata record, decrypting metadata is a
no-op that raises no error, and has_metadata is false. -/
theorem empty_metadata_default (fileData : List Nat)
    (h : (parse fileData).map (fun f => f.metadata_enc_size) = .ok 0) :
    (parse fileData).map hasMetadata = .ok false
    ∧ (parse fileData).map (fun f => f.metadata) = .ok defaultMetadata
    ∧ ∀ decoded, (parse fileData).map (fun f => decryptMetadata f decoded) = parse fileData := by
  cases hp : parse fileData with
  | error e =>
    rw [hp] at h
    simp [Except.map] at h
  | ok f =>
    rw [hp] at h
    simp only [Except.map] at h ⊢
    have hsize : f.metadata_enc_size = 0 := by
      injection h
    have hmeta : f.metadata = defaultMetadata := by
      unfold parse readBytes at hp
      simp only [] at hp
      split at hp
      · simp at hp
      · injection hp with hp
        rw [← hp]
    refine ⟨?_, ?_, ?_⟩
    · simp [hasMetadata, hsize]
    · rw [hmeta]
    · intro decoded
      simp [decryptMetadata, hsize]

/-- Witness for C6 at a concrete container with a zero metadata length. -/
theorem empty_metadata_default_inst :
    (parse (MAGIC_HEADER ++ [0, 0] ++ [0, 0, 0, 0] ++ [0, 0, 0, 0])).map
        (fun f => f.metadata_enc_size) = .ok 0
    ∧ ((parse (MAGIC_HEADER ++ [0, 0] ++ [0, 0, 0, 0] ++ [0, 0, 0, 0])).map hasMetadata
        = .ok false
      ∧ (parse (MAGIC_HEADER ++ [0, 0] ++ [0, 0, 0, 0] ++ [0, 0, 0, 0])).map
          (fun f => f.metadata) = .ok defaultMetadata
      ∧ ∀ decoded,
          (parse (MAGIC_HEADER ++ [0, 0] ++ [0, 0, 0, 0] ++ [0, 0, 0, 0])).map
              (fun f => decryptMetadata f decoded)
            = parse (MAGIC_HEADER ++ [0, 0] ++ [0, 0, 0, 0] ++ [0, 0, 0, 0])) :=
  ⟨rfl, empty_metadata_default (MAGIC_HEADER ++ [0, 0] ++ [0, 0, 0, 0] ++ [0, 0, 0, 0]) rfl⟩

/-- Claim C7: for a decrypted metadata plaintext with type tag ty and JSON
payload, a music record reads its fields from the payload itself, a dj
record from the nested mainMusic object, and any other type tag fails
with UnknownMetadataType. -/
theorem metadata_type_dispatch (data : Json) :
    (∀ m, Metadata.init "music" data = .ok m →
      m.music_metadata = musicDataOf (some data))
    ∧ (∀ m, Metadata.init "dj" data = .ok m →
      m.music_metadata = musicDataOf (data.get "mainMusic"))
    ∧ ∀ ty, ty ≠ "music" → ty ≠ "dj" →
      Metadata.init ty data = .error .UnknownMetadataType := by
  refine ⟨?_, ?_, ?_⟩
  · intro m h
    unfold Metadata.init at h
    rw [if_pos rfl] at h
    injection h with h
    rw [← h]
  · intro m h
    have hne : ("dj" : String) ≠ "music" := by decide
    unfold Metadata.init at h
    rw [if_neg hne, if_pos rfl] at h
    injection h with h
    rw [← h]
  · intro ty h1 h2
    unfold Metadata.init
    rw [if_neg h1, if_neg h2]

/-- Witness for C7 at a concrete unknown type tag. -/
theorem metadata_type_dispatch_inst :
    ("video" : String) ≠ "music" ∧ ("video" : String) ≠ "dj"
    ∧ Metadata.init "video" (Json.obj []) = .error .UnknownMetadataType :=
  ⟨by decide, by decide,
    (metadata_type_dispatch (Json.obj [])).2.2 "video" (by decide) (by decide)⟩

lemma allSome_pair_rows (pairs : List (String × Int)) :
    allSome ((pairs.map (fun p => Json.arr [Json.str p.1, Json.num p.2])).map Json.index0)
      = some (pairs.map (fun p => Json.str p.1)) := by
  induction pairs with
  | nil => rfl
  | cons p rest ih =>
    simp only [List.map_cons, Json.index0, allSome]
    rw [ih]
    rfl

/-- Claim C8: when the artist field of the metadata dict is a list of
name-id pairs, the artists value is the list of first components in the
same order with duplicates preserved; when the field is absent, the
artists value is the empty list. -/
theorem artists_first_elements (d : Json) (pairs : List (String × Int)) :
    (d.get "artist"
        = some (Json.arr (pairs.map (fun p => Json.arr [Json.str p.1, Json.num p.2]))) →
      artistsOf d = some (pairs.map (fun p => Json.str p.1)))
    ∧ (d.get "artist" = none → artistsOf d = some []) := by
  constructor
  · intro h
    unfold artistsOf
    rw [h]
    simpa using allSome_pair_rows pairs
  · intro h
    unfold artistsOf
    rw [h]
    rfl

/-- Witness for C8 at a concrete dict with two duplicate artist names. -/
theorem artists_first_elements_inst :
    (Json.obj [("artist", Json.arr [Json.arr [Json.str "A", Json.num 1],
        Json.arr [Json.str "A", Json.num 2]])]).get "artist"
      = some (Json.arr (([("A", 1), ("A", 2)] : List (String × Int)).map
          (fun p => Json.arr [Json.str p.1, Json.num p.2])))
    ∧ artistsOf (Json.obj [("artist", Json.arr [Json.arr [Json.str "A", Json.num 1],
        Json.arr [Json.str "A", Json.num 2]])])
      = some (([("A", 1), ("A", 2)] : List (String × Int)).map
          (fun p => Json.str p.1)) :=
  ⟨rfl,
    (artists_first_elements
      (Json.obj [("artist", Json.arr [Json.arr [Json.str "A", Json.num 1],
        Json.arr [Json.str "A", Json.num 2]])])
      [("A", 1), ("A", 2)]).1 rfl⟩

/-- Claim C9: when the metadata format tag is neither flac nor mp3,
dump_music still writes the fully decrypted raw audio bytes first and
then signals UnsupportedTagFormat instead of embedding tags. -/
theorem dump_music_unsupported_format (f : NCMFile)
    (h1 : eqStrJson (formatOf f.metadata) "flac" = false)
    (h2 : eqStrJson (formatOf f.metadata) "mp3" = false)
    (h3 : f.music_data = []) :
    dumpMusic f
      = (((NCMRC4.init f.rc4_key).decrypt f.music_data_enc).1,
         .error .UnsupportedTagFormat) := by
  simp [dumpMusic, dumpMusicRaw, h1, h2, h3]

/-- Witness for C9 at a concrete file state with format tag ogg. -/
theorem dump_music_unsupported_format_inst :
    eqStrJson (formatOf sampleFile.metadata) "flac" = false
    ∧ eqStrJson (formatOf sampleFile.metadata) "mp3" = false
    ∧ sampleFile.music_data = []
    ∧ dumpMusic sampleFile
      = (((NCMRC4.init sampleFile.rc4_key).decrypt sampleFile.music_data_enc).1,
         .error .UnsupportedTagFormat) :=
  ⟨rfl, rfl, rfl, dump_music_unsupported_format sampleFile rfl rfl rfl⟩

/-- Claim C4 counterexample: an AES plaintext of 16 bytes 65 followed by a
full padding block unpads to 16 bytes that do not start with the
neteasecloudmusic literal, yet key unwrapping succeeds (returning the
plaintext beyond the first 17 bytes, here empty) instead of failing:
the source performs no literal check at all. -/
theorem rc4_key_no_literal_check_cex :
    pkcs7Unpad (List.replicate 16 65 ++ List.replicate 16 16) 16
        = .ok (List.replicate 16 65)
    ∧ (List.replicate 16 65).take 17 ≠ rc4KeyLiteral
    ∧ decryptRC4Key id (xorMask 0x64 (List.replicate 16 65 ++ List.replicate 16 16))
        = .ok [] :=
  ⟨by rfl, by decide, by rfl⟩

/-- Claim C4 amended: key unwrapping performs no check of the
neteasecloudmusic literal and never fails with CorruptKey.  Whenever
PKCS7 unpadding succeeds, the returned StreamCipherKey is the unpadded
plaintext with its first 17 bytes removed, whether or not the literal is
present (so when it is present, exactly the literal is stripped). -/
theorem rc4_key_unconditional_drop (aesDecrypt : List Nat → List Nat)
    (keyBlob unpadded : List Nat)
    (h : pkcs7Unpad (aesDecrypt (xorMask 0x64 keyBlob)) 16 = .ok unpadded) :
    decryptRC4Key aesDecrypt keyBlob = .ok (unpadded.drop 17) := by
  simp [decryptRC4Key, h, Except.map]

/-- Witness for the amended C4 at a concrete padded plaintext. -/
theorem rc4_key_unconditional_drop_inst :
    pkcs7Unpad (id (xorMask 0x64 (xorMask 0x64 (List.replicate 16 65 ++ List.replicate 16 16)))) 16
        = .ok (List.replicate 16 65)
    ∧ decryptRC4Key id (xorMask 0x64 (List.replicate 16 65 ++ List.replicate 16 16))
        = .ok ((List.replicate 16 65).drop 17) :=
  ⟨by rfl,
    rc4_key_unconditional_drop id (xorMask 0x64 (List.replicate 16 65 ++ List.replicate 16 16))
      (List.replicate 16 65) (by rfl)⟩
